import Mathlib

/-!
Verification development for the multi-session LSP request orchestration layer:
the goto-command dispatch and response normalization of plugin/goto.py, and the
file-rename orchestration of plugin/rename_file.py. Python functions are embedded
as executable Lean functions; observable side effects (requests, notifications,
file-system calls, UI commands) are modelled as ordered action traces.
-/

namespace Goto

/-- A position range in a document, as carried by LSP Location and LocationLink
values. Its fields are opaque to the code modelled here. -/
structure Range where
  startLine : Nat
  startChar : Nat
  endLine : Nat
  endChar : Nat
deriving DecidableEq, Repr

/-- LSP Location: a document URI and a range. -/
structure Location where
  uri : String
  range : Range
deriving DecidableEq, Repr

/-- LSP LocationLink as produced by this code path: target URI, target range and
target selection range. The optional originSelectionRange is never produced by
the upgrade path modelled here. -/
structure LocationLink where
  targetUri : String
  targetRange : Range
  targetSelectionRange : Range
deriving DecidableEq, Repr

/-- One element of a per-session response. In the Python code an element is a
dict; the only check applied is membership of the key targetUri, which
distinguishes a LocationLink from a bare Location. -/
inductive GotoItem where
  | loc (l : Location)
  | link (l : LocationLink)
deriving DecidableEq, Repr

/-- One per-session response: None, a single object, or a list of objects. A
single object is always truthy in Python (a nonempty dict), while None and the
empty list are falsy and skipped by the merge loop. -/
inductive GotoResponse where
  | absent
  | single (item : GotoItem)
  | list (items : List GotoItem)
deriving DecidableEq, Repr

/-- Per-element normalization from the loop body of
LspGotoCommand._handle_responses_async: an element that already carries the
targetUri field passes through unchanged; a bare Location is upgraded to a
LocationLink whose target URI is the Location URI and whose target range and
target selection range both copy the Location range. -/
def normalizeItem : GotoItem → LocationLink
  | .link l => l
  | .loc l => { targetUri := l.uri, targetRange := l.range, targetSelectionRange := l.range }

/-- Items contributed by one response, following the merge loop: a falsy
response (None or the empty list) is skipped, a single object is wrapped into a
one-element list, a list is traversed in order. -/
def responseItems : GotoResponse → List GotoItem
  | .absent => []
  | .single i => [i]
  | .list items => items

/-- The response normalizer of LspGotoCommand._handle_responses_async: the
ordered list of per-session responses is flattened, in order, into one list of
LocationLink values. -/
def normalizeResponses : List GotoResponse → List LocationLink
  | [] => []
  | r :: rs => (responseItems r).map normalizeItem ++ normalizeResponses rs

/-- Observable command effects of the goto pipeline. Sessions are identified by
a numeric id. UI-only payloads are external view state and are not modelled:
the current selections recorded into the jump history record, the picker
placeholder label and symbol kind hint, and the side_by_side, force_group and
group flags forwarded verbatim to navigation. -/
inductive GotoAction where
  | addJumpRecord
  | openLocation (session : Nat) (link : LocationLink)
  | showPicker (session : Nat) (links : List LocationLink)
  | noResults (fallback : Bool)
deriving DecidableEq, Repr

/-- Outcome of LspGotoCommand._handle_no_results: with no window, nothing
happens; with fallback requested and a nonempty fallback_command configured,
that command runs; otherwise a status message reports no results. -/
inductive NoResultsEffect where
  | nothing
  | fallbackCommand
  | statusMessage (msg : String)
deriving DecidableEq, Repr

/-- Model of LspGotoCommand._handle_no_results. The flag
fallbackCommandConfigured models truthiness of the fallback_command string. -/
def handleNoResults (hasWindow fallback fallbackCommandConfigured : Bool) :
    NoResultsEffect :=
  if !hasWindow then .nothing
  else if fallback && fallbackCommandConfigured then .fallbackCommand
  else .statusMessage "No results found"

/-- Response shape accepted by LspGotoCommand._handle_response_async: the
callers inside this module always pass the normalized list, but the function
itself also accepts a single object (the isinstance dict branch) or any other
value such as None (the final branch). -/
inductive HandledResponse where
  | single (l : LocationLink)
  | list (ls : List LocationLink)
  | other
deriving DecidableEq, Repr

/-- Model of LspGotoCommand._handle_response_async: a single object records a
jump and navigates; an empty list takes the no-results path; a one-element list
records a jump and navigates to the element; a longer list records a jump and
shows all candidates through the picker; anything else takes the no-results
path. The modelled action noResults marks an invocation of _handle_no_results,
whose body is handleNoResults. -/
def handleResponseAsync (session : Nat) (fallback : Bool) :
    HandledResponse → List GotoAction
  | .single l => [.addJumpRecord, .openLocation session l]
  | .list [] => [.noResults fallback]
  | .list [l] => [.addJumpRecord, .openLocation session l]
  | .list ls => [.addJumpRecord, .showPicker session ls]
  | .other => [.noResults fallback]

/-- Effects of LspGotoCommand.run: requests issued to sessions, followed by the
actions of the response handler. -/
inductive RunAction where
  | sendRequest (session : Nat) (method : String) (position : Nat)
  | act (a : GotoAction)
deriving DecidableEq, Repr

/-- Model of LspGotoCommand.run composed with its Promise.all continuation.
The sessions argument is the capability-filtered session list in enumeration
order, as returned by self.sessions(capability); position models get_position,
with none meaning no valid position resolves; responses is the combined
per-session response list, which the Promise.all combinator delivers in request
order. With a nonempty session list and a position, one request per session is
issued, all carrying the same document-position parameters (modelled by the
position), and the first session of the list is the one forwarded to the
response handler; otherwise the no-results path runs and no request is sent. -/
def gotoRun (method : String) (sessions : List Nat) (position : Option Nat)
    (fallback : Bool) (responses : List GotoResponse) : List RunAction :=
  match sessions, position with
  | s :: ss, some pos =>
      ((s :: ss).map fun sid => RunAction.sendRequest sid method pos) ++
      ((handleResponseAsync s fallback
          (.list (normalizeResponses responses))).map RunAction.act)
  | _, _ => [RunAction.act (.noResults fallback)]

/-- Whether a run action is a request sent to a session. -/
def isSendRequest : RunAction → Bool
  | .sendRequest _ _ _ => true
  | _ => false

/-- The session argument forwarded to a navigation or picker step, when the
action is such a step. -/
def forwardedSession : RunAction → Option Nat
  | .act (.openLocation s _) => some s
  | .act (.showPicker s _) => some s
  | _ => none

/-- Whether a goto action is the jump-history record command. -/
def isJumpRecord : GotoAction → Bool
  | .addJumpRecord => true
  | _ => false

end Goto

namespace Rename

/-- Whether a string starts with the slash character, marking a POSIX path as
absolute. -/
def startsWithSlash (s : String) : Bool :=
  match s.data with
  | '/' :: _ => true
  | _ => false

/-- Character list split on the slash separator. -/
def splitSlash : List Char → List (List Char)
  | [] => [[]]
  | c :: cs =>
    match splitSlash cs with
    | [] => [[c]]
    | h :: t => if c = '/' then [] :: h :: t else (c :: h) :: t

/-- A path split into its slash-separated fields, models str.split on the
slash. -/
def splitPathComps (s : String) : List String :=
  (splitSlash s.data).map String.mk

/-- Slash-separated join of a list of strings. -/
def joinSlash : List String → String
  | [] => ""
  | [s] => s
  | s :: rest => s ++ "/" ++ joinSlash rest

/-- Parsed POSIX pure path, as pathlib represents it: an absolute flag and the
list of components, with empty and single-dot components dropped. The rarely
used two-leading-slash root form is not distinguished. -/
structure PurePath where
  absolute : Bool
  comps : List String
deriving DecidableEq, Repr

/-- Models PurePosixPath construction from a string. -/
def parsePath (s : String) : PurePath :=
  { absolute := startsWithSlash s
    comps := (splitPathComps s).filter fun c => c != "" && c != "." }

/-- Models the pathlib parent property: drop the last component. -/
def PurePath.parent (p : PurePath) : PurePath :=
  { p with comps := p.comps.dropLast }

/-- Models the pathlib slash operator: an absolute right operand replaces the
path, otherwise its components are appended. -/
def PurePath.join (p : PurePath) (s : String) : PurePath :=
  let q := parsePath s
  if q.absolute then q else { p with comps := p.comps ++ q.comps }

/-- Models str() on a pure path, rendering the empty relative path as the
single dot. -/
def PurePath.render (p : PurePath) : String :=
  if p.absolute then "/" ++ joinSlash p.comps
  else if p.comps.isEmpty then "." else joinSlash p.comps

/-- One step of the component loop of os.path.normpath: empty and single-dot
components are dropped; a double dot is kept when the path is relative and
nothing was accumulated yet or when the last accumulated component is itself a
double dot, pops the last accumulated component when one exists, and is
discarded at the root of an absolute path. -/
def normStep (absolute : Bool) (acc : List String) (comp : String) : List String :=
  if comp = "" ∨ comp = "." then acc
  else if comp ≠ ".." ∨ (¬ absolute ∧ acc = []) ∨ acc.getLast? = some ".." then
    acc ++ [comp]
  else if acc ≠ [] then acc.dropLast
  else acc

/-- Models os.path.normpath for POSIX paths (the two-leading-slash special root
is not distinguished). -/
def normPath (p : String) : String :=
  if p = "" then "."
  else
    let absolute := startsWithSlash p
    let joined := joinSlash ((splitPathComps p).foldl (normStep absolute) [])
    let out := if absolute then "/" ++ joined else joined
    if out = "" then "." else out

/-- The destination computation of LspRenameFileCommand.run: the new name is
resolved against the parent directory of the old path and the result is
normalized, modelling os.path.normpath applied to Path(old_path).parent divided
by new_name. -/
def resolveNewPath (old_path new_name : String) : String :=
  normPath (((parsePath old_path).parent.join new_name).render)

/-- Models the pathlib name property: the last component, or the empty string
when there is none. -/
def pathName (s : String) : String :=
  ((parsePath s).comps.getLast?).getD ""

/-- Models urllib.parse.urljoin with the base "file:" for path arguments free
of dot segments, which is what run produces after normPath: the empty path
yields the bare scheme, and any other path is attached behind the double slash
of an empty authority, a relative path gaining a leading slash. The dot-segment
removal urljoin would additionally perform is not modelled because the inputs
here contain no dot segments. -/
def fileUri (path : String) : String :=
  if path = "" then "file:"
  else if startsWithSlash path then "file://" ++ path
  else "file:///" ++ path

/-- One file rename entry of RenameFilesParams. -/
structure FileRename where
  newUri : String
  oldUri : String
deriving DecidableEq, Repr

/-- RenameFilesParams: the files list of rename entries. -/
structure RenameFilesParams where
  files : List FileRename
deriving DecidableEq, Repr

/-- The params value built in LspRenameFileCommand.run: a single entry whose
URIs come from urljoin with the file scheme. -/
def mkRenameParams (old_path new_path : String) : RenameFilesParams :=
  { files := [{ newUri := fileUri new_path, oldUri := fileUri old_path }] }

/-- WorkspaceEdit content is opaque to this code path: it is only tested for
truthiness and forwarded to apply_workspace_edit_async. A response is modelled
as an optional WorkspaceEdit where none stands for any falsy result, that is
None or an edit with no content, both skipped by the truthiness test. -/
structure WorkspaceEdit where
  editId : Nat
deriving DecidableEq, Repr

/-- An attached session as seen by this command: its configuration name and the
workspace.fileOperations.didRename capability flag that notify_did_rename
queries. -/
structure SessionInfo where
  name : String
  hasDidRename : Bool
deriving DecidableEq, Repr

/-- Selections are captured as pairs of region endpoints. -/
abbrev Sel := Int × Int

/-- Observable effects of the rename pipeline, in execution order. -/
inductive RenameAction where
  | statusMessage (msg : String)
  | setViewName (nm : String)
  | sendWillRenameRequest (params : RenameFilesParams)
  | applyWorkspaceEdit (edit : WorkspaceEdit)
  | closeView (path : String)
  | makeDirs (dir : String)
  | fsRename (old_path new_path : String)
  | reopenFile (path : String)
  | restoreSelections (sels : List Sel)
  | didRenameFilesNotification (session : String) (params : RenameFilesParams)
deriving DecidableEq, Repr

/-- External state read by the rename pipeline: os.path.exists as a predicate
on paths, the open document for the old path with its selections when
find_open_file finds one, whether os.path.isfile holds of the destination after
the rename, and whether the asynchronous reopen resolves with a view. -/
structure FsView where
  pathExists : String → Bool
  openDoc : Option (List Sel)
  newPathIsFile : Bool
  reopenResolves : Bool

/-- Model of LspRenameFileCommand.rename_path: when the old path has an open
document its selections are captured and the document is closed; the parent
directory of the destination is created when missing; the file-system entry is
renamed; then, when the destination is a regular file, it is reopened and the
captured selections are restored once the reopened view resolves, restoration
being a no-op when the reopen does not resolve. -/
def rename_path (w : FsView) (old_path new_path : String) : List RenameAction :=
  (match w.openDoc with
   | some _ => [RenameAction.closeView old_path]
   | none => []) ++
  (if w.pathExists ((parsePath new_path).parent.render) then []
   else [RenameAction.makeDirs ((parsePath new_path).parent.render)]) ++
  [RenameAction.fsRename old_path new_path] ++
  (if w.newPathIsFile then
    RenameAction.reopenFile new_path ::
      (if w.reopenResolves then [RenameAction.restoreSelections (w.openDoc.getD [])]
       else [])
   else [])

/-- Model of LspRenameFileCommand.notify_did_rename: one didRenameFiles
notification, carrying the given params, to each session advertising the
workspace.fileOperations.didRename capability, in enumeration order. The
registry behind self.sessions() is not part of the sources here; following the
specification it enumerates all attached sessions. -/
def notify_did_rename (sessions : List SessionInfo) (params : RenameFilesParams) :
    List RenameAction :=
  (sessions.filter (·.hasDidRename)).map
    fun s => RenameAction.didRenameFilesNotification s.name params

/-- Model of LspRenameFileCommand.handle, the willRenameFiles response
callback. The flag sessionFound models whether session_by_name still finds the
originating session when the response arrives; res models the response, with
none standing for any falsy result, meaning no edit. Every effect, the
workspace-edit application as well as the physical rename and the notification,
is guarded by the session lookup. -/
def handle (w : FsView) (sessions : List SessionInfo) (sessionFound : Bool)
    (res : Option WorkspaceEdit) (old_path new_path : String)
    (params : RenameFilesParams) : List RenameAction :=
  if sessionFound then
    (match res with
     | some e => [RenameAction.applyWorkspaceEdit e]
     | none => []) ++
    rename_path w old_path new_path ++ notify_did_rename sessions params
  else []

/-- Model of LspRenameFileCommand.get_old_path: a truthy dirs list wins, then a
truthy files list, then the file name of the active view with None mapped to
the empty string, else the empty string. -/
def get_old_path (dirs files : Option (List String))
    (view : Option (Option String)) : String :=
  match dirs with
  | some (d :: _) => d
  | _ =>
    match files with
    | some (f :: _) => f
    | _ =>
      match view with
      | some fileName => fileName.getD ""
      | none => ""

/-- Model of LspRenameFileCommand.run up to its first suspension point. The
argument willRenameSession models self.session(), the registry lookup of a
session advertising workspace.fileOperations.willRename; the registry is not
part of the sources here and follows the specification. The destination-exists
check aborts with a status message; an empty old path with an active view
renames the buffer label only; with no capable session the physical rename and
the notification run directly; with a capable session the trace ends with the
willRenameFiles request, whose continuation is the separate handle model. -/
def renameRun (w : FsView) (sessions : List SessionInfo)
    (willRenameSession : Option String) (new_name : String)
    (dirs files : Option (List String)) (view : Option (Option String)) :
    List RenameAction :=
  let old_path := get_old_path dirs files view
  let new_path := resolveNewPath old_path new_name
  if w.pathExists new_path then
    [RenameAction.statusMessage "Unable to Rename. Already exists"]
  else if old_path = "" ∧ view.isSome then
    [RenameAction.setViewName (pathName new_path)]
  else
    match willRenameSession with
    | none =>
        rename_path w old_path new_path ++
        notify_did_rename sessions (mkRenameParams old_path new_path)
    | some _ => [RenameAction.sendWillRenameRequest (mkRenameParams old_path new_path)]

/-- End-to-end trace of one rename operation: run composed with the handle
callback of the willRenameFiles round trip, when run sent that request. -/
def renamePipeline (w : FsView) (sessions : List SessionInfo)
    (willRenameSession : Option String) (sessionFound : Bool)
    (res : Option WorkspaceEdit) (new_name : String)
    (dirs files : Option (List String)) (view : Option (Option String)) :
    List RenameAction :=
  let old_path := get_old_path dirs files view
  let new_path := resolveNewPath old_path new_name
  if w.pathExists new_path then
    [RenameAction.statusMessage "Unable to Rename. Already exists"]
  else if old_path = "" ∧ view.isSome then
    [RenameAction.setViewName (pathName new_path)]
  else
    let params := mkRenameParams old_path new_path
    match willRenameSession with
    | none => rename_path w old_path new_path ++ notify_did_rename sessions params
    | some _ =>
        RenameAction.sendWillRenameRequest params ::
        handle w sessions sessionFound res old_path new_path params

/-- Whether a rename action is the file-system rename call. -/
def isFsRename : RenameAction → Bool
  | .fsRename _ _ => true
  | _ => false

/-- Concrete external state for example instantiations: every path exists. -/
def allExists : FsView :=
  { pathExists := fun _ => true, openDoc := none, newPathIsFile := true,
    reopenResolves := true }

/-- Concrete external state for example instantiations: only the directory /a
exists, no document is open for the old path, the renamed destination is a
regular file and the reopen resolves. -/
def slashAOnly : FsView :=
  { pathExists := fun p => decide (p = "/a"), openDoc := none, newPathIsFile := true,
    reopenResolves := true }

/-- Concrete external state for example instantiations: an open document with
one captured selection. -/
def openDocWorld : FsView :=
  { pathExists := fun p => decide (p = "/a"), openDoc := some [(1, 2)],
    newPathIsFile := true, reopenResolves := true }

/-- Concrete external state for example instantiations: the destination is not
a regular file after the rename, as for a renamed directory. -/
def dirDest : FsView :=
  { pathExists := fun p => decide (p = "/a"), openDoc := none, newPathIsFile := false,
    reopenResolves := true }

end Rename

namespace Goto

/-- Helper: requests contributed by the fan-out survive the isSendRequest
filter unchanged. -/
theorem filter_send_over_requests (method : String) (pos : Nat) (l : List Nat) :
    (l.map fun sid => RunAction.sendRequest sid method pos).filter isSendRequest =
      l.map fun sid => RunAction.sendRequest sid method pos := by
  induction l with
  | nil => rfl
  | cons x xs ih => simp [isSendRequest, ih]

/-- Helper: handler actions contain no request. -/
theorem filter_send_over_acts (l : List GotoAction) :
    (l.map RunAction.act).filter isSendRequest = [] := by
  induction l with
  | nil => rfl
  | cons x xs ih => simp [isSendRequest, ih]

/-- Helper: the actions of the response handler only ever forward the session
it was given. -/
theorem handler_forwards_given_session (s : Nat) (fb : Bool) (ls : List LocationLink) :
    (((handleResponseAsync s fb (.list ls)).map RunAction.act).filterMap
        forwardedSession).all (· == s) = true := by
  match ls with
  | [] => rfl
  | [l] => simp [handleResponseAsync, forwardedSession]
  | l :: l2 :: t => simp [handleResponseAsync, forwardedSession]

/-- Helper: requests forward no session to navigation or picker steps. -/
theorem requests_forward_no_session (method : String) (pos : Nat) (l : List Nat) :
    (l.map fun sid => RunAction.sendRequest sid method pos).filterMap
        forwardedSession = [] := by
  induction l with
  | nil => rfl
  | cons x xs ih => simp [forwardedSession, ih]

end Goto

/-- C2: the response normalizer is a pure function on the ordered list of
per-session responses: an absent or empty response contributes nothing, a
single object counts as a one-element list, an element already carrying the
target fields passes through unchanged, and a bare Location is upgraded to a
LocationLink whose target URI is the Location URI and whose target range and
target selection range both equal the Location range; output preserves session
order then element order with no deduplication, and merging a one-location
list, an absent response and a two-link list yields exactly the three-element
sequence of the upgraded location followed by the two links. -/
theorem c2_normalizer_merge :
    (Goto.normalizeResponses [] = []) ∧
    (∀ rs, Goto.normalizeResponses (Goto.GotoResponse.absent :: rs) =
      Goto.normalizeResponses rs) ∧
    (∀ rs, Goto.normalizeResponses (Goto.GotoResponse.list [] :: rs) =
      Goto.normalizeResponses rs) ∧
    (∀ i rs, Goto.normalizeResponses (Goto.GotoResponse.single i :: rs) =
      Goto.normalizeItem i :: Goto.normalizeResponses rs) ∧
    (∀ l, Goto.normalizeItem (Goto.GotoItem.link l) = l) ∧
    (∀ loc, Goto.normalizeItem (Goto.GotoItem.loc loc) =
      { targetUri := loc.uri, targetRange := loc.range,
        targetSelectionRange := loc.range }) ∧
    (∀ items rs, Goto.normalizeResponses (Goto.GotoResponse.list items :: rs) =
      items.map Goto.normalizeItem ++ Goto.normalizeResponses rs) ∧
    (∀ locA linkB linkC,
      Goto.normalizeResponses
          [Goto.GotoResponse.list [Goto.GotoItem.loc locA],
           Goto.GotoResponse.absent,
           Goto.GotoResponse.list [Goto.GotoItem.link linkB, Goto.GotoItem.link linkC]] =
        [{ targetUri := locA.uri, targetRange := locA.range,
           targetSelectionRange := locA.range }, linkB, linkC]) := by
  refine ⟨rfl, ?_, ?_, ?_, ?_, ?_, ?_, ?_⟩ <;>
    intros <;> simp [Goto.normalizeResponses, Goto.responseItems, Goto.normalizeItem]

/-- C3: on a merged goto result list, zero results invoke the no-results path
and the jump-history record command never runs; exactly one result runs the
jump-history record exactly once and navigates directly without the picker;
several results run the jump-history record and show all candidates through
the picker; the record count is one exactly when results are nonempty, so the
record is never made before results are known to be nonempty. -/
theorem c3_jump_history_policy :
    (∀ s fb, Goto.handleResponseAsync s fb (.list []) =
      [Goto.GotoAction.noResults fb]) ∧
    (∀ s fb l, Goto.handleResponseAsync s fb (.list [l]) =
      [Goto.GotoAction.addJumpRecord, Goto.GotoAction.openLocation s l]) ∧
    (∀ s fb l l2 t, Goto.handleResponseAsync s fb (.list (l :: l2 :: t)) =
      [Goto.GotoAction.addJumpRecord, Goto.GotoAction.showPicker s (l :: l2 :: t)]) ∧
    (∀ s fb ls, (Goto.handleResponseAsync s fb (.list ls)).countP Goto.isJumpRecord =
      if ls.isEmpty then 0 else 1) := by
  refine ⟨fun s fb => rfl, fun s fb l => rfl, fun s fb l l2 t => rfl, fun s fb ls => ?_⟩
  match ls with
  | [] => rfl
  | [l] => simp [Goto.handleResponseAsync, Goto.isJumpRecord]
  | l :: l2 :: t => simp [Goto.handleResponseAsync, Goto.isJumpRecord]

/-- C7: for every list of capability-advertising sessions, the dispatcher
issues exactly one request per session, all carrying the same method and
document-position parameters and in session enumeration order, and hands the
response handler exactly the normalized merge of the session-ordered response
list, which preserves session order response by response; with no session or
with no resolved position the trace is exactly the no-results invocation and
contains no request. -/
theorem c7_dispatch_fanout :
    (∀ method fb rs pos, Goto.gotoRun method [] pos fb rs =
      [Goto.RunAction.act (Goto.GotoAction.noResults fb)]) ∧
    (∀ method fb rs sessions, Goto.gotoRun method sessions none fb rs =
      [Goto.RunAction.act (Goto.GotoAction.noResults fb)]) ∧
    (∀ method fb rs sessions pos,
      (Goto.gotoRun method sessions (some pos) fb rs).filter Goto.isSendRequest =
        sessions.map fun sid => Goto.RunAction.sendRequest sid method pos) ∧
    (∀ method fb rs s ss pos,
      (Goto.gotoRun method (s :: ss) (some pos) fb rs).filter
          (fun a => !Goto.isSendRequest a) =
        (Goto.handleResponseAsync s fb
          (.list (Goto.normalizeResponses rs))).map Goto.RunAction.act) ∧
    (∀ r rs, Goto.normalizeResponses (r :: rs) =
      (Goto.responseItems r).map Goto.normalizeItem ++ Goto.normalizeResponses rs) := by
  refine ⟨?_, ?_, ?_, ?_, ?_⟩
  · intro method fb rs pos
    cases pos <;> rfl
  · intro method fb rs sessions
    cases sessions <;> rfl
  · intro method fb rs sessions pos
    cases sessions with
    | nil => rfl
    | cons s ss =>
      simp only [Goto.gotoRun, List.filter_append,
        Goto.filter_send_over_requests, Goto.filter_send_over_acts,
        List.append_nil]
  · intro method fb rs s ss pos
    simp only [Goto.gotoRun, List.filter_append]
    have h1 : ((s :: ss).map fun sid =>
        Goto.RunAction.sendRequest sid method pos).filter
          (fun a => !Goto.isSendRequest a) = [] := by
      induction (s :: ss) with
      | nil => rfl
      | cons x xs ih => simp [Goto.isSendRequest, ih]
    have h2 : ∀ l : List Goto.GotoAction,
        (l.map Goto.RunAction.act).filter (fun a => !Goto.isSendRequest a) =
          l.map Goto.RunAction.act := by
      intro l
      induction l with
      | nil => rfl
      | cons x xs ih => simp [Goto.isSendRequest, ih]
    rw [h1, h2, List.nil_append]
  · intro r rs
    rfl

/-- C9: for every dispatch with at least one eligible session, every session
forwarded to a navigation or picker step equals the first session of the
capability enumeration, whatever the responses were, in the single-result and
multi-result branches alike. -/
theorem c9_first_session_forwarded :
    ∀ method fb rs s ss pos,
      ((Goto.gotoRun method (s :: ss) (some pos) fb rs).filterMap
          Goto.forwardedSession).all (· == s) = true := by
  intro method fb rs s ss pos
  simp only [Goto.gotoRun, List.filterMap_append,
    Goto.requests_forward_no_session, List.nil_append]
  exact Goto.handler_forwards_given_session s fb (Goto.normalizeResponses rs)

namespace Rename

/-- Helper: the trace of rename_path always splits around exactly the one
file-system rename call. -/
theorem rename_path_has_rename (w : FsView) (o n : String) :
    ∃ pre post, rename_path w o n = pre ++ RenameAction.fsRename o n :: post := by
  refine ⟨(match w.openDoc with
      | some _ => [RenameAction.closeView o]
      | none => []) ++
    (if w.pathExists ((parsePath n).parent.render) then []
     else [RenameAction.makeDirs ((parsePath n).parent.render)]),
    (if w.newPathIsFile then
      RenameAction.reopenFile n ::
        (if w.reopenResolves then [RenameAction.restoreSelections (w.openDoc.getD [])]
         else [])
     else []), ?_⟩
  simp [rename_path]

end Rename

/-- C4: when the destination path, the new name resolved against the parent
directory of the source path, already exists, the whole rename operation is
the status message alone and has no side effects: no willRenameFiles request,
no workspace edit, no document close, no directory creation, no file-system
rename, no reopen and no didRenameFiles notification, on the request-sending
run prefix as well as on the pipeline including the response callback. -/
theorem c4_destination_exists_aborts (w : Rename.FsView)
    (sessions : List Rename.SessionInfo) (wrs : Option String) (sf : Bool)
    (res : Option Rename.WorkspaceEdit) (new_name : String)
    (dirs files : Option (List String)) (view : Option (Option String))
    (h : w.pathExists
        (Rename.resolveNewPath (Rename.get_old_path dirs files view) new_name) = true) :
    Rename.renamePipeline w sessions wrs sf res new_name dirs files view =
      [Rename.RenameAction.statusMessage "Unable to Rename. Already exists"] ∧
    Rename.renameRun w sessions wrs new_name dirs files view =
      [Rename.RenameAction.statusMessage "Unable to Rename. Already exists"] := by
  constructor <;> simp [Rename.renamePipeline, Rename.renameRun, h]

/-- Witness for C4 at a concrete input: every path exists, so renaming
/a/b.txt to c.txt aborts with the status message only. -/
theorem c4_destination_exists_aborts_witness :
    (Rename.allExists.pathExists
        (Rename.resolveNewPath (Rename.get_old_path none (some ["/a/b.txt"]) none)
          "c.txt") = true) ∧
    (Rename.renamePipeline Rename.allExists [] none true none "c.txt" none
        (some ["/a/b.txt"]) none =
      [Rename.RenameAction.statusMessage "Unable to Rename. Already exists"] ∧
     Rename.renameRun Rename.allExists [] none "c.txt" none
        (some ["/a/b.txt"]) none =
      [Rename.RenameAction.statusMessage "Unable to Rename. Already exists"]) :=
  ⟨rfl, c4_destination_exists_aborts Rename.allExists [] none true none "c.txt"
    none (some ["/a/b.txt"]) none rfl⟩

/-- C5: when the willRenameFiles response carries a truthy WorkspaceEdit and
the originating session is found, the handle callback applies the edit
strictly before the file-system rename call in the recorded call sequence. -/
theorem c5_edit_applied_before_rename (w : Rename.FsView)
    (sessions : List Rename.SessionInfo) (e : Rename.WorkspaceEdit)
    (old_path new_path : String) (params : Rename.RenameFilesParams) :
    ∃ pre post,
      Rename.handle w sessions true (some e) old_path new_path params =
        pre ++ Rename.RenameAction.fsRename old_path new_path :: post ∧
      Rename.RenameAction.applyWorkspaceEdit e ∈ pre := by
  obtain ⟨pre, post, hsplit⟩ := Rename.rename_path_has_rename w old_path new_path
  refine ⟨Rename.RenameAction.applyWorkspaceEdit e :: pre,
    post ++ Rename.notify_did_rename sessions params, ?_, by simp⟩
  simp [Rename.handle, hsplit]

/-- C1 as stated is refuted at a concrete input: the destination-exists check
passed, the willRenameFiles round trip ended with no originating session found
by session_by_name, and the handle callback then performs nothing, so the
physical rename is not performed and no didRenameFiles notification is sent. -/
theorem c1_counterexample :
    Rename.handle Rename.slashAOnly [{ name := "srv", hasDidRename := true }]
        false none "/a/b.txt" "/a/c.txt"
        (Rename.mkRenameParams "/a/b.txt" "/a/c.txt") = [] ∧
    Rename.RenameAction.fsRename "/a/b.txt" "/a/c.txt" ∉
      Rename.handle Rename.slashAOnly [{ name := "srv", hasDidRename := true }]
        false none "/a/b.txt" "/a/c.txt"
        (Rename.mkRenameParams "/a/b.txt" "/a/c.txt") := by
  constructor
  · rfl
  · simp [Rename.handle]

/-- C1 amended: when the willRenameFiles response arrives with a falsy result,
treated as no edit returned, and the originating session is still found, the
physical rename is still performed and the notification step still runs; when
the originating session can no longer be found at response time, the callback
performs nothing, so neither the rename nor the notification happens. -/
theorem c1_amended_failure_isolation (w : Rename.FsView)
    (sessions : List Rename.SessionInfo) (old_path new_path : String)
    (params : Rename.RenameFilesParams) :
    (Rename.handle w sessions true none old_path new_path params =
      Rename.rename_path w old_path new_path ++
        Rename.notify_did_rename sessions params) ∧
    (Rename.RenameAction.fsRename old_path new_path ∈
      Rename.handle w sessions true none old_path new_path params) ∧
    (∀ res, Rename.handle w sessions false res old_path new_path params = []) := by
  refine ⟨by simp [Rename.handle], ?_, fun res => rfl⟩
  obtain ⟨pre, post, hsplit⟩ := Rename.rename_path_has_rename w old_path new_path
  simp [Rename.handle, hsplit]

/-- C6: every element of the notification step is a didRenameFiles
notification carrying the given params to a session advertising the didRename
capability; session by session, a capable session contributes exactly one
notification and an incapable one contributes none; whenever the originating
session was found the handle callback ends with exactly that notification
step, and the step equally runs on the direct path without any willRenameFiles
session, as the concrete rename of /a/b.txt to c.txt with /a/c.txt absent
shows: exactly one notification, to the one capable session, carrying oldUri
file:///a/b.txt and newUri file:///a/c.txt. -/
theorem c6_did_rename_capability_fanout :
    (∀ sessions params a, a ∈ Rename.notify_did_rename sessions params →
      ∃ s, s ∈ sessions ∧ s.hasDidRename = true ∧
        a = Rename.RenameAction.didRenameFilesNotification s.name params) ∧
    (∀ s ss params, Rename.notify_did_rename (s :: ss) params =
      (if s.hasDidRename then
        [Rename.RenameAction.didRenameFilesNotification s.name params]
       else []) ++
      Rename.notify_did_rename ss params) ∧
    (∀ w sessions old_path new_path params, ∃ pre,
      Rename.handle w sessions true none old_path new_path params =
        pre ++ Rename.notify_did_rename sessions params) ∧
    (Rename.renamePipeline Rename.slashAOnly
        [{ name := "srv", hasDidRename := true },
         { name := "other", hasDidRename := false }]
        none true none "c.txt" none (some ["/a/b.txt"]) none =
      [Rename.RenameAction.fsRename "/a/b.txt" "/a/c.txt",
       Rename.RenameAction.reopenFile "/a/c.txt",
       Rename.RenameAction.restoreSelections [],
       Rename.RenameAction.didRenameFilesNotification "srv"
         { files := [{ newUri := "file:///a/c.txt", oldUri := "file:///a/b.txt" }] }]) := by
  refine ⟨?_, ?_, ?_, ?_⟩
  · intro sessions params a ha
    rw [Rename.notify_did_rename] at ha
    obtain ⟨s, hs, rfl⟩ := List.mem_map.mp ha
    have hf := List.mem_filter.mp hs
    exact ⟨s, hf.1, hf.2, rfl⟩
  · intro s ss params
    by_cases h : s.hasDidRename = true <;>
      simp [Rename.notify_did_rename, List.filter_cons, h]
  · intro w sessions old_path new_path params
    exact ⟨Rename.rename_path w old_path new_path, by simp [Rename.handle]⟩
  · decide

/-- Witness for C6 at a concrete input: a notification drawn from the
notification step of one capable session is a didRenameFiles notification to
that session with the given params. -/
theorem c6_did_rename_capability_fanout_witness :
    ∃ s, s ∈ [({ name := "srv", hasDidRename := true } : Rename.SessionInfo)] ∧
      s.hasDidRename = true ∧
      Rename.RenameAction.didRenameFilesNotification "srv"
          (Rename.mkRenameParams "/a/b.txt" "/a/c.txt") =
        Rename.RenameAction.didRenameFilesNotification s.name
          (Rename.mkRenameParams "/a/b.txt" "/a/c.txt") :=
  c6_did_rename_capability_fanout.1
    [{ name := "srv", hasDidRename := true }]
    (Rename.mkRenameParams "/a/b.txt" "/a/c.txt")
    (Rename.RenameAction.didRenameFilesNotification "srv"
      (Rename.mkRenameParams "/a/b.txt" "/a/c.txt"))
    (by simp [Rename.notify_did_rename])

/-- C8: with an open document for the source path and a regular-file
destination, the physical-rename step closes the document strictly before the
file-system rename, which happens strictly before the reopen of the new path;
the file-system entry is renamed exactly once; once the asynchronous reopen
resolves the captured selections are restored, and when it does not resolve
restoration is silently skipped with no restore action at all. -/
theorem c8_close_rename_reopen_order (w : Rename.FsView)
    (old_path new_path : String) (sels : List Rename.Sel)
    (hopen : w.openDoc = some sels) (hfile : w.newPathIsFile = true) :
    ∃ i j k : Nat, i < j ∧ j < k ∧
      (Rename.rename_path w old_path new_path)[i]? =
        some (Rename.RenameAction.closeView old_path) ∧
      (Rename.rename_path w old_path new_path)[j]? =
        some (Rename.RenameAction.fsRename old_path new_path) ∧
      (Rename.rename_path w old_path new_path)[k]? =
        some (Rename.RenameAction.reopenFile new_path) ∧
      (Rename.rename_path w old_path new_path).countP Rename.isFsRename = 1 ∧
      (w.reopenResolves = true →
        Rename.RenameAction.restoreSelections sels ∈
          Rename.rename_path w old_path new_path) ∧
      (w.reopenResolves = false → ∀ l,
        Rename.RenameAction.restoreSelections l ∉
          Rename.rename_path w old_path new_path) := by
  cases hd : w.pathExists ((Rename.parsePath new_path).parent.render) with
  | true =>
    refine ⟨0, 1, 2, by omega, by omega, ?_⟩
    cases hr : w.reopenResolves <;>
      simp [Rename.rename_path, hopen, hfile, hd, hr, Rename.isFsRename]
  | false =>
    refine ⟨0, 2, 3, by omega, by omega, ?_⟩
    cases hr : w.reopenResolves <;>
      simp [Rename.rename_path, hopen, hfile, hd, hr, Rename.isFsRename]

/-- Witness for C8 at a concrete input: an open document with one selection,
an existing destination directory and a regular-file destination. -/
theorem c8_close_rename_reopen_order_witness :
    (Rename.openDocWorld.openDoc = some [(1, 2)]) ∧
    (Rename.openDocWorld.newPathIsFile = true) ∧
    (∃ i j k : Nat, i < j ∧ j < k ∧
      (Rename.rename_path Rename.openDocWorld "/a/b.txt" "/a/c.txt")[i]? =
        some (Rename.RenameAction.closeView "/a/b.txt") ∧
      (Rename.rename_path Rename.openDocWorld "/a/b.txt" "/a/c.txt")[j]? =
        some (Rename.RenameAction.fsRename "/a/b.txt" "/a/c.txt") ∧
      (Rename.rename_path Rename.openDocWorld "/a/b.txt" "/a/c.txt")[k]? =
        some (Rename.RenameAction.reopenFile "/a/c.txt") ∧
      (Rename.rename_path Rename.openDocWorld "/a/b.txt" "/a/c.txt").countP
          Rename.isFsRename = 1 ∧
      (Rename.openDocWorld.reopenResolves = true →
        Rename.RenameAction.restoreSelections [(1, 2)] ∈
          Rename.rename_path Rename.openDocWorld "/a/b.txt" "/a/c.txt") ∧
      (Rename.openDocWorld.reopenResolves = false → ∀ l,
        Rename.RenameAction.restoreSelections l ∉
          Rename.rename_path Rename.openDocWorld "/a/b.txt" "/a/c.txt")) :=
  ⟨rfl, rfl,
    c8_close_rename_reopen_order Rename.openDocWorld "/a/b.txt" "/a/c.txt"
      [(1, 2)] rfl rfl⟩

/-- C10: after the file-system rename, a regular-file destination is always
reopened, even when the source path had no open document, in which case the
restored selection set is empty; a destination that is not a regular file,
such as a renamed directory, is never reopened. -/
theorem c10_reopen_regular_file (w : Rename.FsView) (old_path new_path : String) :
    (w.newPathIsFile = true →
      Rename.RenameAction.reopenFile new_path ∈
        Rename.rename_path w old_path new_path) ∧
    (w.newPathIsFile = true → w.openDoc = none → w.reopenResolves = true →
      Rename.RenameAction.restoreSelections [] ∈
        Rename.rename_path w old_path new_path) ∧
    (w.newPathIsFile = false → ∀ p,
      Rename.RenameAction.reopenFile p ∉
        Rename.rename_path w old_path new_path) := by
  refine ⟨fun hf => ?_, fun hf ho hr => ?_, fun hf p => ?_⟩
  · cases ho : w.openDoc <;>
      cases hd : w.pathExists ((Rename.parsePath new_path).parent.render) <;>
      cases hr : w.reopenResolves <;>
      simp [Rename.rename_path, ho, hd, hr, hf]
  · cases hd : w.pathExists ((Rename.parsePath new_path).parent.render) <;>
      simp [Rename.rename_path, ho, hd, hr, hf]
  · cases ho : w.openDoc <;>
      cases hd : w.pathExists ((Rename.parsePath new_path).parent.render) <;>
      simp [Rename.rename_path, ho, hd, hf]

/-- Witness for C10 at concrete inputs: with no open document and a
regular-file destination the reopen happens and restores the empty selection
set; with a directory destination no reopen happens. -/
theorem c10_reopen_regular_file_witness :
    (Rename.RenameAction.reopenFile "/a/c.txt" ∈
      Rename.rename_path Rename.slashAOnly "/a/b.txt" "/a/c.txt") ∧
    (Rename.RenameAction.restoreSelections [] ∈
      Rename.rename_path Rename.slashAOnly "/a/b.txt" "/a/c.txt") ∧
    (Rename.RenameAction.reopenFile "/a/c" ∉
      Rename.rename_path Rename.dirDest "/a/b" "/a/c") :=
  ⟨(c10_reopen_regular_file Rename.slashAOnly "/a/b.txt" "/a/c.txt").1 rfl,
   (c10_reopen_regular_file Rename.slashAOnly "/a/b.txt" "/a/c.txt").2.1 rfl rfl rfl,
   (c10_reopen_regular_file Rename.dirDest "/a/b" "/a/c").2.2 rfl "/a/c"⟩
